import Mathlib

/-!
Verification of the `mymy` command-line utility against its specification.

The Rust sources are shallowly embedded: pure formatting and aggregation
functions become Lean functions over `Nat`, `String`, `List` and `Option`;
fallible probes become `Except`/`Option` parameters; machine-integer widths
are tracked with explicit bounds (`u64max`, `u128size`).  Terminal coloring
is modelled by the chosen color/severity alone (the ANSI escape wrapping is
cosmetic and orthogonal to every property below, so strings are rendered as
with colors disabled).
-/

namespace Mymy

/-- Upper bound of Rust's `u64` type. -/
def u64max : Nat := 2 ^ 64 - 1

/-- Modulus of Rust's `u128` type. -/
def u128size : Nat := 2 ^ 128

/-- Rust's left-aligned width format `{:<w$}`: pad `s` on the right with
spaces up to width `w` (never truncating). -/
def padRight (s : String) (w : Nat) : String :=
  s ++ String.mk (List.replicate (w - s.length) ' ')

/-- A run of `n` spaces, as produced by Rust's `{:indent$}` applied to `""`. -/
def spaces (n : Nat) : String :=
  String.mk (List.replicate n ' ')

/-- Rust's `{:02}` format for a natural number: zero-pad to two digits. -/
def pad2 (n : Nat) : String :=
  if n < 10 then "0" ++ toString n else toString n

/-- Rounds the rational `a / b` to the nearest integer, ties to even.  This is
the rounding Rust's float `Display` performs at the cut digit when a precision
like `{:.2}` is given (the formatter rounds the exact decimal expansion of the
binary value, half to even). -/
def roundHalfEven (a b : Nat) : Nat :=
  let q := a / b
  let r := a % b
  if 2 * r < b then q
  else if b < 2 * r then q + 1
  else if q % 2 = 0 then q else q + 1

namespace format

/-- Binary unit constants from `src/format.rs`. -/
def KILO : Nat := 1024

def MEGA : Nat := 1024 * KILO

def GIGA : Nat := 1024 * MEGA

def TERA : Nat := 1024 * GIGA

def PETA : Nat := 1024 * TERA

/-- Inner helper `format_scaled` of `format::human_readable_size`
(`src/format.rs` lines 12-17): integer whole part, then the fractional part
`remainder * 100 / unit` zero-padded to two digits. -/
def format_scaled (bytes unit : Nat) (suffix : String) : String :=
  let whole := bytes / unit
  let remainder := bytes % unit
  let decimals := remainder * 100 / unit
  toString whole ++ "." ++ pad2 decimals ++ " " ++ suffix

/-- `format::human_readable_size` (`src/format.rs` lines 5-27).  Note the
first bracket: byte counts below 1024 are printed as `format!("{bytes} B")`,
with no fractional digits. -/
def human_readable_size (bytes : Nat) : String :=
  if bytes < KILO then toString bytes ++ " B"
  else if bytes < MEGA then format_scaled bytes KILO "KiB"
  else if bytes < GIGA then format_scaled bytes MEGA "MiB"
  else if bytes < TERA then format_scaled bytes GIGA "GiB"
  else if bytes < PETA then format_scaled bytes TERA "TiB"
  else format_scaled bytes PETA "PiB"

/-- `format::Percentage` (`src/format.rs` lines 29-31): an integer number of
tenths of a percent. -/
structure Percentage where
  tenths : Nat
  deriving DecidableEq, Repr

/-- `Percentage::from_ratio` (`src/format.rs` lines 34-43).  The product
`u128::from(numerator) * 1000` lives in `u128` (hence the explicit
`% u128size`); `u64::try_from(..).unwrap_or(u64::MAX)` saturates the quotient
at `u64::MAX`. -/
def Percentage.from_ratio (numerator denominator : Nat) : Percentage :=
  if denominator = 0 then ⟨0⟩
  else
    let prod := numerator * 1000 % u128size
    let q := prod / denominator
    if q ≤ u64max then ⟨q⟩ else ⟨u64max⟩

/-- The `Display` impl for `Percentage` (`src/format.rs` lines 46-50):
`write!(f, ..tenths / 10 .. tenths % 10..)` with a dot in between. -/
def Percentage.display (p : Percentage) : String :=
  toString (p.tenths / 10) ++ "." ++ toString (p.tenths % 10)

end format

namespace storage

/-- `storage::human_readable_size` (`src/storage.rs` lines 91-106): the disk
renderer's own byte formatter.  The source divides in `f64` and prints with
`{:.2}`.  For every byte count below `2^53` the conversion to `f64` and the
division by a power of two are exact, so the printed value is exactly
`bytes / unit` rounded to two decimals, half to even; that exact computation
is what this definition performs (all inputs used in theorems below are far
below `2^53`). -/
def human_readable_size (bytes : Nat) : String :=
  if bytes < format.KILO then toString bytes ++ " B"
  else if bytes < format.MEGA then scaled bytes format.KILO "KiB"
  else if bytes < format.GIGA then scaled bytes format.MEGA "MiB"
  else if bytes < format.TERA then scaled bytes format.GIGA "GiB"
  else if bytes < format.PETA then scaled bytes format.TERA "TiB"
  else scaled bytes format.PETA "PiB"
where
  /-- Rust `format!("{:.2} {suffix}", bytes as f64 / unit as f64)`. -/
  scaled (bytes unit : Nat) (suffix : String) : String :=
    let hundredths := roundHalfEven (bytes * 100) unit
    toString (hundredths / 100) ++ "." ++ pad2 (hundredths % 100) ++ " " ++ suffix

end storage

/-- Rust's `f64::round`: round half away from zero (arguments are
non-negative here, so ties round up).  `roundHalfUp a b` rounds the rational
`a / b` for `b ≠ 0`. -/
def roundHalfUp (a b : Nat) : Nat :=
  (2 * a + b) / (2 * b)

/-- A qualitative severity band, standing for the terminal color chosen by
the renderers: `critical` = red, `warning` = yellow, `nominal` = green. -/
inductive Severity
  | critical
  | warning
  | nominal
  deriving DecidableEq, Repr

/-- The severity rule the spec states as the single source of truth:
banding driven off the integer tenths-of-a-percent value, with tenths > 900
critical, tenths > 700 warning, anything else nominal.  (Stated from the
spec's words, for comparison against the renderers' code.) -/
def tenthsSeverity (tenths : Nat) : Severity :=
  if tenths > 900 then .critical
  else if tenths > 700 then .warning
  else .nominal

namespace network

/-- `split(':').next().unwrap()` on a socket-address string
(`src/network.rs` lines 140-145): the prefix before the first colon (the
whole string when it has no colon, matching Rust's first split fragment). -/
def addressOf (s : String) : String :=
  String.mk (s.data.takeWhile fun c => c ≠ ':')

/-- `Vec::dedup` (`src/network.rs` line 149): removes consecutive repeated
elements only, keeping the first element of each run. -/
def dedup_adjacent : List String → List String
  | [] => []
  | [a] => [a]
  | a :: b :: rest =>
    if a = b then dedup_adjacent (b :: rest) else a :: dedup_adjacent (b :: rest)

/-- `network::list_dns_servers` (`src/network.rs` lines 134-152) as a function
of the nameserver socket-address strings the system configuration returned:
map each to its address (prefix before the colon), then `Vec::dedup`. -/
def list_dns_servers (nameservers : List String) : List String :=
  dedup_adjacent (nameservers.map addressOf)

end network

namespace storage

/-- A disk as returned by the `sysinfo` collaborator: `name` is the `OsStr`
disk name (`none` models a name that cannot be converted to UTF-8), `kind`
the debug-formatted disk type. -/
structure RawDisk where
  name : Option String
  kind : String
  total_space : Nat
  free_space : Nat
  deriving DecidableEq, Repr

/-- `storage::DiskInfo` (`src/storage.rs` lines 53-64). -/
structure DiskInfo where
  name : String
  type_ : String
  total_space : Nat
  free_space : Nat
  deriving DecidableEq, Repr

/-- Recursion worker for itertools' `unique_by`: `seen` is the set of keys
already emitted. -/
def unique_by_go {α κ : Type} [DecidableEq κ] (key : α → κ) (seen : List κ) :
    List α → List α
  | [] => []
  | a :: rest =>
    if key a ∈ seen then unique_by_go key seen rest
    else a :: unique_by_go key (key a :: seen) rest

/-- itertools' `unique_by` (used at `src/storage.rs` line 33): keep only the
first occurrence of each identity key, preserving order. -/
def unique_by {α κ : Type} [DecidableEq κ] (key : α → κ) (l : List α) : List α :=
  unique_by_go key [] l

/-- The per-disk conversion inside `storage::list_disks`
(`src/storage.rs` lines 34-47): fails when the `OsStr` name is not UTF-8. -/
def convert_disk (d : RawDisk) : Except String DiskInfo :=
  match d.name with
  | some n => .ok ⟨n, d.kind, d.total_space, d.free_space⟩
  | none => .error "unknown"

/-- `storage::list_disks` (`src/storage.rs` lines 25-49) as a function of the
disks the `sysinfo` collaborator returned: dedup by disk name
(`unique_by(|disk| disk.name())`), then fallibly convert each. -/
def list_disks (disks : List RawDisk) : Except String (List DiskInfo) :=
  (unique_by RawDisk.name disks).mapM convert_disk

/-- The free-space severity banding of the `Display` impl for `DiskInfo`
(`src/storage.rs` lines 70-76): the source computes
`(free as f64 / total as f64 * 100.0).round()` and compares against 10.0 and
20.0.  For a zero total the float quotient is NaN or infinity, so both `<`
comparisons are false and the green arm is taken.  Otherwise this definition
rounds the exact rational, which agrees with the f64 computation whenever the
intermediate float results are exact (as at every input used in the theorems
below). -/
def DiskInfo.freeSeverity (d : DiskInfo) : Severity :=
  if d.total_space = 0 then .nominal
  else
    let pct := roundHalfUp (d.free_space * 100) d.total_space
    if pct < 10 then .critical
    else if pct < 20 then .warning
    else .nominal

/-- The text line rendered for one disk by the `Display` impl for `DiskInfo`
(`src/storage.rs` lines 66-88), with colors disabled.  Byte counts go through
the module's own `storage::human_readable_size`, not the shared
`format::human_readable_size`. -/
def DiskInfo.display (d : DiskInfo) : String :=
  let pctText :=
    if d.total_space = 0 then "NaN"
    else toString (roundHalfUp (d.free_space * 100) d.total_space)
  d.name ++ ", " ++ d.type_ ++ ", " ++ human_readable_size d.free_space ++
    " free of " ++ human_readable_size d.total_space ++ " (" ++ pctText ++ "% free)"

end storage

namespace system

/-- `system::Ram` (`src/system.rs` lines 138-150). -/
structure Ram where
  total : Nat
  used : Nat
  free : Nat
  available : Nat
  deriving DecidableEq, Repr

/-- The used-RAM severity banding of the `Display` impl for `Ram`
(`src/system.rs` lines 160-164): the match on `percentage.tenths` with guards
`p > 900` (red) and `p > 700` (yellow), else green. -/
def Ram.usedSeverity (r : Ram) : Severity :=
  if (format.Percentage.from_ratio r.used r.total).tenths > 900 then .critical
  else if (format.Percentage.from_ratio r.used r.total).tenths > 700 then .warning
  else .nominal

/-- The text line rendered by the `Display` impl for `Ram`
(`src/system.rs` lines 152-174), colors disabled.  Byte counts go through the
shared `format::human_readable_size` and the percent through
`format::Percentage`. -/
def Ram.display (r : Ram) : String :=
  format.human_readable_size r.total ++ " installed, " ++
    format.human_readable_size r.used ++ " in use (" ++
    (format.Percentage.from_ratio r.used r.total).display ++ "%)"

end system

namespace datetime

/-- The NTP clock-offset payload.  In the source it is an `f64` number of
seconds; the aggregator performs no arithmetic on it (it is stored and
rendered only), so it is carried opaquely by an integer representative. -/
structure Offset where
  secs : Int
  deriving DecidableEq, Repr

/-- `datetime::Date` (`src/datetime.rs` lines 15-22). -/
structure Date where
  day_name : String
  day_number : Nat
  month_name : String
  year : Int
  week_number : Nat
  deriving DecidableEq, Repr

/-- `datetime::Time` (`src/datetime.rs` lines 62-70): the clock-offset
sub-field is optional and skipped by the JSON serializer when absent. -/
structure Time where
  hour : Nat
  minute : Nat
  second : Nat
  timezone : String
  offset : Option Offset
  deriving DecidableEq, Repr

/-- Outcome of `tokio::time::timeout(5s, client.synchronize("pool.ntp.org"))`
(`src/datetime.rs` line 51): `Ok(Ok(_))` is a successful synchronization,
`Ok(Err(_))` a synchronization failure, `Err(_)` the elapsed deadline. -/
inductive NtpOutcome
  | synced (offset : Offset)
  | syncFailed (msg : String)
  | timedOut
  deriving DecidableEq, Repr

/-- The explicit deadline passed to `tokio::time::timeout` in the time probe
(`Duration::from_secs(5)`, `src/datetime.rs` line 51) — the only
`tokio::time::timeout` in the program. -/
def NTP_TIMEOUT_SECS : Nat := 5

/-- `Time::from(DateTime<Local>)` (`src/datetime.rs` lines 105-115): the
offset starts out absent. -/
def Time.fromLocal (hour minute second : Nat) (timezone : String) : Time :=
  ⟨hour, minute, second, timezone, none⟩

/-- `datetime::time` (`src/datetime.rs` lines 46-60) as a function of the
local clock reading and the NTP outcome.  It is total — there is no error
path: a successful sync fills the offset, while a sync failure or the elapsed
timeout only emits a stderr warning (second component) and leaves the offset
absent. -/
def time (hour minute second : Nat) (timezone : String) (ntp : NtpOutcome) :
    Time × List String :=
  let t := Time.fromLocal hour minute second timezone
  match ntp with
  | .synced off => ({ t with offset := some off }, [])
  | .syncFailed e => (t, ["warning: could not sync with NTP server: " ++ e])
  | .timedOut => (t, ["warning: NTP query timed out"])

/-- `datetime::Datetime` (`src/datetime.rs` lines 126-133). -/
structure Datetime where
  date : Date
  time : Time
  deriving DecidableEq, Repr

/-- `datetime::datetime` (`src/datetime.rs` lines 118-124): same clock
reading for date and time, time probed with the NTP outcome. -/
def datetime (date : Date) (hour minute second : Nat) (timezone : String)
    (ntp : NtpOutcome) : Datetime × List String :=
  let (t, warns) := time hour minute second timezone ntp
  (⟨date, t⟩, warns)

end datetime

namespace network

/-- `network::IpCategory` (`src/network.rs` lines 155-165). -/
inductive IpCategory
  | Public
  | Local
  | Any
  deriving DecidableEq, Repr

/-- The `Display` impl for `IpCategory` (`src/network.rs` lines 167-175). -/
def IpCategory.display : IpCategory → String
  | .Public => "public"
  | .Local => "local"
  | .Any => "*"

/-- The derived serde serialization of an `IpCategory` unit variant: the
variant's name as a string. -/
def IpCategory.serdeName : IpCategory → String
  | .Public => "Public"
  | .Local => "Local"
  | .Any => "Any"

/-- `network::Ip` (`src/network.rs` lines 40-48); the `IpAddr` is carried as
its textual form, which is all the program ever uses of it.  Serde renames
`address` to `ip`. -/
structure Ip where
  address : String
  category : IpCategory
  deriving DecidableEq, Repr

/-- `network::Interface` (`src/network.rs` lines 208-215). -/
structure Interface where
  name : String
  ip : String
  deriving DecidableEq, Repr

/-- Modelled from the spec: the `network::DnsServer` struct referenced by
`main.rs` is not among the provided sources (only its callers are).  Per the
spec a DNS-server probe result is a DNS server with its ordinal position:
the address plus a 1-indexed `order` assigned after deduplication. -/
structure DnsServer where
  order : Nat
  address : String
  deriving DecidableEq, Repr

/-- Modelled from the spec: the `DnsServer`-returning variant of
`list_dns_servers` used by `main.rs` is not among the provided sources.  Per
the spec, "DNS servers additionally receive a 1-indexed ordinal position
assigned after deduplication"; built on the provided address-list
`list_dns_servers`. -/
def list_dns_servers_with_order (nameservers : List String) : List DnsServer :=
  (list_dns_servers nameservers).enum.map fun p => ⟨p.1 + 1, p.2⟩

/-- Modelled from the spec: `network::is_default_visible`, referenced by
`main.rs`, is not among the provided sources.  Per the spec, loopback
(`127.0.0.1`, `::1`) and link-local (`169.254.x.x`, `fe80::...`) addresses
are hidden by default; everything else is visible. -/
def is_default_visible (i : Interface) : Bool :=
  !(i.ip.startsWith "127." || i.ip == "::1" ||
    i.ip.startsWith "169.254." || i.ip.startsWith "fe80:")

end network

namespace system

/-- `system::Hostname` (`src/system.rs` lines 10-12). -/
structure Hostname where
  hostname : String
  deriving DecidableEq, Repr

/-- `system::hostname` (`src/system.rs` lines 21-24) as a function of the
`whoami::hostname()` collaborator outcome. -/
def hostname (res : Except String String) : Except String Hostname :=
  res.map Hostname.mk

/-- `system::Username` (`src/system.rs` lines 27-29). -/
structure Username where
  username : String
  deriving DecidableEq, Repr

/-- `system::username` (`src/system.rs` lines 38-41). -/
def username (res : Except String String) : Except String Username :=
  res.map Username.mk

/-- `system::DeviceName` (`src/system.rs` lines 44-46). -/
structure DeviceName where
  device_name : String
  deriving DecidableEq, Repr

/-- `system::device_name` (`src/system.rs` lines 55-58). -/
def device_name (res : Except String String) : Except String DeviceName :=
  res.map DeviceName.mk

/-- `system::OperatingSystem` (`src/system.rs` lines 61-63). -/
structure OperatingSystem where
  name : String
  deriving DecidableEq, Repr

/-- `system::os` (`src/system.rs` lines 72-75). -/
def os (res : Except String String) : Except String OperatingSystem :=
  res.map OperatingSystem.mk

/-- `system::Architecture` (`src/system.rs` lines 78-80). -/
structure Architecture where
  architecture : String
  deriving DecidableEq, Repr

/-- `system::architecture` (`src/system.rs` lines 89-91): built from the
infallible `whoami::cpu_arch()` collaborator. -/
def architecture (arch : String) : Architecture :=
  ⟨arch⟩

/-- `system::Cpu` (`src/system.rs` lines 94-104). -/
structure Cpu where
  brand : String
  core_count : Nat
  frequency : Nat
  deriving DecidableEq, Repr

end system

/-- The named wrapper `Ips` (`src/main.rs` lines 553-556), giving list-typed
JSON output a top-level key. -/
structure Ips where
  ips : List network.Ip
  deriving DecidableEq, Repr

/-- The named wrapper `DnsServers` (`src/main.rs` lines 558-561). -/
structure DnsServers where
  dns_servers : List network.DnsServer
  deriving DecidableEq, Repr

/-- The named wrapper `Interfaces` (`src/main.rs` lines 563-566). -/
structure Interfaces where
  interfaces : List network.Interface
  deriving DecidableEq, Repr

/-- The named wrapper `Disks` (`src/main.rs` lines 568-571). -/
structure Disks where
  disks : List storage.DiskInfo
  deriving DecidableEq, Repr

/-- The `Everything` snapshot (`src/main.rs` lines 316-351): optional fields
are `Option` and carry `#[serde(skip_serializing_if = "Option::is_none")]`;
`date`, `time`, `architecture` and `ram` are mandatory. -/
structure Everything where
  ips : Option (List network.Ip)
  dns : Option (List network.DnsServer)
  date : datetime.Date
  time : datetime.Time
  hostname : Option system.Hostname
  username : Option system.Username
  device_name : Option system.DeviceName
  os : Option system.OperatingSystem
  architecture : system.Architecture
  interfaces : Option (List network.Interface)
  disks : Option (List storage.DiskInfo)
  cpu : Option system.Cpu
  ram : system.Ram
  deriving DecidableEq, Repr

/-- `CommandResult` (`src/main.rs` lines 575-593): the tagged result model
consumed by both renderers. -/
inductive CommandResult
  | ips (w : Ips)
  | dns (w : DnsServers)
  | date (d : datetime.Date)
  | time (t : datetime.Time)
  | datetimeRes (dt : datetime.Datetime)
  | hostname (h : system.Hostname)
  | username (u : system.Username)
  | deviceName (d : system.DeviceName)
  | os (o : system.OperatingSystem)
  | architecture (a : system.Architecture)
  | interfaces (w : Interfaces)
  | disks (w : Disks)
  | cpu (c : system.Cpu)
  | ram (r : system.Ram)
  | everything (e : Everything)
  deriving DecidableEq, Repr

/-- Exit code of the process for an executed command (`src/main.rs` `main`,
documented at lines 23-27): `Ok` prints and exits 0, a returned `anyhow`
error exits 1. -/
def exit_code (r : Except String CommandResult) : Nat :=
  match r with
  | .ok _ => 0
  | .error _ => 1

/-- `network::OPENDNS_SERVER_HOST` (`src/network.rs` line 109). -/
def OPENDNS_SERVER_HOST : String := "208.67.222.222"

/-- `network::DNS_DEFAULT_PORT` (`src/network.rs` line 104). -/
def DNS_DEFAULT_PORT : Nat := 53

/-- `warn_on_err` (`src/main.rs` lines 784-792): converts a probe result to
an `Option`, with the stderr warning line as second component. -/
def warn_on_err {T : Type} (result : Except String T) (label : String) :
    Option T × List String :=
  match result with
  | .ok v => (some v, [])
  | .error e => (none, ["warning: could not determine " ++ label ++ ": " ++ e])

/-- `gather_ips` (`src/main.rs` lines 794-815): best-effort collection of the
public and local IP addresses, each probe outcome given as a parameter.  The
public entry is pushed first, then the local one; each failing side only
contributes a stderr warning (second component); the result is `none` iff
both probes failed. -/
def gather_ips (publicRes localRes : Except String String) :
    Option (List network.Ip) × List String :=
  let (ips1, warns1) :=
    match publicRes with
    | .ok a => ([network.Ip.mk a .Public], ([] : List String))
    | .error e => ([], ["warning: could not determine public IP: " ++ e])
  let (ips2, warns2) :=
    match localRes with
    | .ok a => ([network.Ip.mk a .Local], ([] : List String))
    | .error e => ([], ["warning: could not determine local IP: " ++ e])
  let ips := ips1 ++ ips2
  (if ips.isEmpty then none else some ips, warns1 ++ warns2)

/-- `handle_ips` (`src/main.rs` lines 704-738) as a function of the category
flag and the two probe outcomes.  `--only public` and `--only local` are
strict (`with_context` wraps the failure); `--only any` — and the flag left
unset — delegates to the best-effort `gather_ips` and fails only when it
produced nothing.  The second component is the stderr warning list. -/
def handle_ips (only : Option network.IpCategory)
    (publicRes localRes : Except String String) :
    Except String CommandResult × List String :=
  match only with
  | some .Public =>
    match publicRes with
    | .ok a => (.ok (.ips ⟨[network.Ip.mk a .Public]⟩), [])
    | .error e =>
      (.error ("looking up public ip failed; reason: querying dns server " ++
        OPENDNS_SERVER_HOST ++ " on port " ++ toString DNS_DEFAULT_PORT ++
        " failed: " ++ e), [])
  | some .Local =>
    match localRes with
    | .ok a => (.ok (.ips ⟨[network.Ip.mk a .Local]⟩), [])
    | .error e =>
      (.error ("looking up local ip failed; reason: querying local ip address failed: " ++ e),
        [])
  | some .Any | none =>
    match gather_ips publicRes localRes with
    | (some ips, warns) => (.ok (.ips ⟨ips⟩), warns)
    | (none, warns) => (.error "could not determine any IP addresses", warns)

/-- The outcome of every external collaborator call one `everything`
invocation makes, plus the infallible local readings — the input over which
`handle_everything` is a pure function. -/
structure World where
  publicIp : Except String String
  localIp : Except String String
  ntp : datetime.NtpOutcome
  dnsConf : Except String (List String)
  hostnameRes : Except String String
  usernameRes : Except String String
  deviceNameRes : Except String String
  osRes : Except String String
  arch : String
  interfacesRes : Except String (List network.Interface)
  rawDisks : List storage.RawDisk
  cpuRes : Except String system.Cpu
  ram : system.Ram
  date : datetime.Date
  hour : Nat
  minute : Nat
  second : Nat
  timezone : String

/-- `handle_everything` (`src/main.rs` lines 817-861): every fallible probe
is downgraded through `warn_on_err` (or through `gather_ips` for the IP
pair), the mandatory fields come from infallible calls, and interfaces are
filtered to the default-visible ones.  Returns the assembled snapshot
(wrapped into `CommandResult::Everything` by the caller) and the collected
stderr warnings. -/
def handle_everything (w : World) : Everything × List String :=
  let ipsR := gather_ips w.publicIp w.localIp
  let timeR := datetime.time w.hour w.minute w.second w.timezone w.ntp
  let dnsR := warn_on_err
    ((w.dnsConf.map network.list_dns_servers_with_order).mapError
      (fun e => "listing DNS servers: " ++ e)) "dns servers"
  let hostR := warn_on_err (system.hostname w.hostnameRes) "hostname"
  let userR := warn_on_err (system.username w.usernameRes) "username"
  let devR := warn_on_err (system.device_name w.deviceNameRes) "device name"
  let osR := warn_on_err (system.os w.osRes) "os"
  let architecture := system.architecture w.arch
  let ifR := warn_on_err
    (w.interfacesRes.mapError (fun e => "listing network interfaces: " ++ e))
    "network interfaces"
  let interfaces := ifR.1.map fun l => l.filter network.is_default_visible
  let diskR := warn_on_err
    ((storage.list_disks w.rawDisks).mapError (fun e => "listing disks: " ++ e)) "disks"
  let cpuR := warn_on_err
    (w.cpuRes.mapError (fun e => "listing CPUs: " ++ e)) "cpu"
  (⟨ipsR.1, dnsR.1, w.date, timeR.1, hostR.1, userR.1, devR.1, osR.1, architecture,
      interfaces, diskR.1, cpuR.1, w.ram⟩,
    ipsR.2 ++ timeR.2 ++ dnsR.2 ++ hostR.2 ++ userR.2 ++ devR.2 ++
      osR.2 ++ ifR.2 ++ diskR.2 ++ cpuR.2)

/-- The snapshot assembled by one `everything` invocation. -/
def snapshot (w : World) : Everything :=
  (handle_everything w).1

/-- `execute_command` for the `everything` arm (`src/main.rs` line 682):
infallible, always `Ok`. -/
def execute_everything (w : World) : Except String CommandResult :=
  .ok (.everything (snapshot w))

/-- `execute_command` for the `time` arm (`src/main.rs` line 669):
infallible, always `Ok`. -/
def execute_time (hour minute second : Nat) (timezone : String)
    (ntp : datetime.NtpOutcome) : Except String CommandResult :=
  .ok (.time (datetime.time hour minute second timezone ntp).1)

/-- `execute_command` for the `datetime` arm (`src/main.rs` line 670):
infallible, always `Ok`. -/
def execute_datetime (date : datetime.Date) (hour minute second : Nat)
    (timezone : String) (ntp : datetime.NtpOutcome) : Except String CommandResult :=
  .ok (.datetimeRes (datetime.datetime date hour minute second timezone ntp).1)

/-- A JSON value, as produced by `serde_json`. -/
inductive Json
  | null
  | str (s : String)
  | num (n : Int)
  | bool (b : Bool)
  | arr (items : List Json)
  | obj (fields : List (String × Json))
  deriving Repr

/-- The field list of a JSON object (empty for non-objects). -/
def Json.objFields : Json → List (String × Json)
  | .obj fs => fs
  | _ => []

/-- The top-level keys of a JSON object. -/
def Json.keys (j : Json) : List String :=
  j.objFields.map Prod.fst

namespace network

/-- Serde serialization of `Ip`: `address` is renamed to `ip`. -/
def Ip.toJson (ip : Ip) : Json :=
  .obj [("ip", .str ip.address), ("category", .str ip.category.serdeName)]

/-- Serde serialization of `Interface`. -/
def Interface.toJson (i : Interface) : Json :=
  .obj [("name", .str i.name), ("ip", .str i.ip)]

/-- Modelled from the spec: serialization of the spec-modelled `DnsServer`
(ordinal position plus address). -/
def DnsServer.toJson (s : DnsServer) : Json :=
  .obj [("order", .num s.order), ("address", .str s.address)]

end network

namespace datetime

/-- Serde serialization of `Date`. -/
def Date.toJson (d : Date) : Json :=
  .obj [("day_name", .str d.day_name), ("day_number", .num d.day_number),
    ("month_name", .str d.month_name), ("year", .num d.year),
    ("week_number", .num d.week_number)]

/-- Serde serialization of `Time`: the offset field carries
`#[serde(skip_serializing_if = "Option::is_none")]`, so it is omitted when
absent. -/
def Time.toJson (t : Time) : Json :=
  .obj ([("hour", .num t.hour), ("minute", .num t.minute),
    ("second", .num t.second), ("timezone", .str t.timezone)] ++
    (match t.offset with
     | some o => [("offset", .num o.secs)]
     | none => []))

end datetime

namespace storage

/-- Serde serialization of `DiskInfo` (`src/storage.rs` lines 52-64, with the
declared renames). -/
def DiskInfo.toJson (d : DiskInfo) : Json :=
  .obj [("name", .str d.name), ("type", .str d.type_),
    ("total_space_bytes", .num d.total_space),
    ("free_space_bytes", .num d.free_space)]

end storage

namespace system

/-- Serde serialization of `Hostname`. -/
def Hostname.toJson (h : Hostname) : Json :=
  .obj [("hostname", .str h.hostname)]

/-- Serde serialization of `Username`. -/
def Username.toJson (u : Username) : Json :=
  .obj [("username", .str u.username)]

/-- Serde serialization of `DeviceName`. -/
def DeviceName.toJson (d : DeviceName) : Json :=
  .obj [("device_name", .str d.device_name)]

/-- Serde serialization of `OperatingSystem`. -/
def OperatingSystem.toJson (o : OperatingSystem) : Json :=
  .obj [("name", .str o.name)]

/-- Serde serialization of `Architecture`. -/
def Architecture.toJson (a : Architecture) : Json :=
  .obj [("architecture", .str a.architecture)]

/-- Serde serialization of `Cpu` (`src/system.rs` lines 94-104). -/
def Cpu.toJson (c : Cpu) : Json :=
  .obj [("brand", .str c.brand), ("core_count", .num c.core_count),
    ("frequency", .num c.frequency)]

/-- Serde serialization of `Ram` (`src/system.rs` lines 137-150, with the
declared renames). -/
def Ram.toJson (r : Ram) : Json :=
  .obj [("total_ram_bytes", .num r.total), ("used_ram_bytes", .num r.used),
    ("free_ram_bytes", .num r.free), ("available_ram_bytes", .num r.available)]

end system

/-- The contribution of one skip-if-none optional field to a serde object:
one key/value pair when present, nothing when absent (never a null). -/
def optField {α : Type} (key : String) (f : α → Json) : Option α → List (String × Json)
  | some v => [(key, f v)]
  | none => []

/-- Serde serialization of the `Everything` snapshot (`src/main.rs` lines
316-351): fields in declaration order, optional fields omitted entirely when
absent (`skip_serializing_if = "Option::is_none"`). -/
def Everything.toJson (e : Everything) : Json :=
  .obj (optField "ips" (fun l => Json.arr (l.map network.Ip.toJson)) e.ips ++
    optField "dns" (fun l => Json.arr (l.map network.DnsServer.toJson)) e.dns ++
    [("date", e.date.toJson), ("time", e.time.toJson)] ++
    optField "hostname" system.Hostname.toJson e.hostname ++
    optField "username" system.Username.toJson e.username ++
    optField "device_name" system.DeviceName.toJson e.device_name ++
    optField "os" system.OperatingSystem.toJson e.os ++
    [("architecture", e.architecture.toJson)] ++
    optField "interfaces" (fun l => Json.arr (l.map network.Interface.toJson)) e.interfaces ++
    optField "disks" (fun l => Json.arr (l.map storage.DiskInfo.toJson)) e.disks ++
    optField "cpu" system.Cpu.toJson e.cpu ++
    [("ram", e.ram.toJson)])

/-- One collected row of the Network section
(`src/main.rs` lines 403-423): group name, sub-label, value. -/
structure NetRow where
  group : String
  label : String
  value : String
  deriving DecidableEq, Repr

/-- The rows pushed for the `ips` group (`src/main.rs` lines 405-409):
sub-label is the category's display form, value the address. -/
def ipsRows (e : Everything) : List NetRow :=
  match e.ips with
  | some ips => ips.map fun ip => ⟨"ips", ip.category.display, ip.address⟩
  | none => []

/-- The rows pushed for the `dns` group (`src/main.rs` lines 410-418):
sub-label `server {order}`, value the address. -/
def dnsRows (e : Everything) : List NetRow :=
  match e.dns with
  | some dns => dns.map fun s => ⟨"dns", "server " ++ toString s.order, s.address⟩
  | none => []

/-- The rows pushed for the `interfaces` group (`src/main.rs` lines
419-423): sub-label the interface name, value its address. -/
def ifaceRows (e : Everything) : List NetRow :=
  match e.interfaces with
  | some ifs => ifs.map fun i => ⟨"interfaces", i.name, i.ip⟩
  | none => []

/-- Pass 1 of `Everything::write_network_section` (`src/main.rs` lines
403-423): collect the `(group, sub-label, value)` triples of the present
groups, in group order — ips, then dns, then interfaces. -/
def collectNetworkRows (e : Everything) : List NetRow :=
  ipsRows e ++ dnsRows e ++ ifaceRows e

/-- The longest sub-label length across all collected rows
(`.map(|(_, lbl, _)| lbl.len()).max().unwrap_or(0)`). -/
def maxSubLabelLen (rows : List NetRow) : Nat :=
  rows.foldl (fun acc r => max acc r.label.length) 0

/-- Pass 2 (`src/main.rs` line 430): the sub-label column width is the
longest sub-label length plus one. -/
def innerWidth (rows : List NetRow) : Nat :=
  maxSubLabelLen rows + 1

/-- `LABEL_WIDTH` (`src/main.rs` line 465). -/
def LABEL_WIDTH : Nat := 15

/-- One emitted Network-section line before string assembly: the group label
when this row starts a new group (`None` for a continuation row), the
sub-label, the value. -/
structure NetLine where
  outer : Option String
  label : String
  value : String
  deriving DecidableEq, Repr

/-- Pass 3 of `Everything::write_network_section` (`src/main.rs` lines
432-458): walk the rows with the `current_field` state; a row whose group
equals the state is a continuation row, any other row prints the group label
and updates the state. -/
def netLinesGo : Option String → List NetRow → List NetLine
  | _, [] => []
  | cur, r :: rest =>
    if cur = some r.group then
      ⟨none, r.label, r.value⟩ :: netLinesGo cur rest
    else
      ⟨some r.group, r.label, r.value⟩ :: netLinesGo (some r.group) rest

/-- The `current_field` state after the pass-3 loop has processed the given
rows, starting from `cur`. -/
def lastGroup (cur : Option String) : List NetRow → Option String
  | [] => cur
  | r :: rest => lastGroup (some r.group) rest

/-- String assembly of one Network-section line (the two `writeln!` calls at
`src/main.rs` lines 437-455, colors disabled): a first-of-group row prints
two spaces, the group label padded to `LABEL_WIDTH`, the sub-label padded to
the inner width, then the value; a continuation row replaces the first two
columns with `2 + LABEL_WIDTH` spaces. -/
def renderNetLine (iw : Nat) (l : NetLine) : String :=
  match l.outer with
  | some g => "  " ++ padRight g LABEL_WIDTH ++ padRight l.label iw ++ l.value
  | none => spaces (2 + LABEL_WIDTH) ++ padRight l.label iw ++ l.value

/-- `Everything::write_network_section` (`src/main.rs` lines 401-461) as the
list of emitted lines: nothing when no rows were collected, otherwise one
line per row. -/
def write_network_section (e : Everything) : List String :=
  let rows := collectNetworkRows e
  if rows.isEmpty then []
  else (netLinesGo none rows).map (renderNetLine (innerWidth rows))

/-- The run-length marking the spec describes for pass 3: the group label is
printed exactly on the rows where the group differs from the previous row's
group.  (Stated from the spec's words, for comparison with `netLinesGo`.) -/
def linesSpec (rows : List NetRow) : List NetLine :=
  rows.zipWith
    (fun r prev => ⟨if prev = some r.group then none else some r.group, r.label, r.value⟩)
    (none :: rows.map fun r => some r.group)

/-- The concrete snapshot of the spec's Network-section example: ips rows
`public`/`local`, dns rows `server 1`/`server 2`, one interface row `en0`;
mandatory fields filled with the spec's own examples. -/
def exampleSnapshot : Everything :=
  { ips := some [⟨"93.184.216.34", .Public⟩, ⟨"192.168.1.42", .Local⟩],
    dns := some [⟨1, "8.8.8.8"⟩, ⟨2, "8.8.4.4"⟩],
    date := ⟨"Saturday", 8, "April", 2023, 14⟩,
    time := ⟨20, 20, 2, "UTC", none⟩,
    hostname := none, username := none, device_name := none, os := none,
    architecture := ⟨"aarch64"⟩,
    interfaces := some [⟨"en0", "192.168.1.42"⟩],
    disks := none, cpu := none, ram := ⟨0, 0, 0, 0⟩ }

/-- The `u128` product `numerator * 1000` never wraps for `u64` inputs. -/
theorem mul1000_mod_u128 (n : Nat) (hn : n ≤ u64max) :
    n * 1000 % u128size = n * 1000 := by
  apply Nat.mod_eq_of_lt
  calc n * 1000 ≤ u64max * 1000 := Nat.mul_le_mul_right 1000 hn
    _ < u128size := by decide

/-- Both byte formatters agree on the sub-1024 bracket: each prints the raw
byte count followed by a space and `B`. -/
theorem hrs_agree_below_kilo (b : Nat) (hb : b < 1024) :
    storage.human_readable_size b = format.human_readable_size b := by
  unfold storage.human_readable_size format.human_readable_size
  rw [if_pos (by simpa [format.KILO] using hb),
    if_pos (by simpa [format.KILO] using hb)]

/-- C5 counterexample: `human_readable_size(0)` returns `"0 B"`, not the
claimed `"0.00 B"` — the sub-1024 bracket prints no fractional digits. -/
theorem c5_zero_bytes_counterexample :
    format.human_readable_size 0 = "0 B" ∧ format.human_readable_size 0 ≠ "0.00 B" := by
  constructor <;> decide

/-- C5 (amended): `human_readable_size(0)` returns `"0 B"` (bytes below 1024
are printed as the raw count followed by `" B"`, with no fractional digits),
`human_readable_size(1536)` returns `"1.50 KiB"`, and
`human_readable_size(1073741824)` returns `"1.00 GiB"`; brackets from KiB
upward use the whole.fractional two-digit form. -/
theorem c5_human_readable_size_values :
    format.human_readable_size 0 = "0 B" ∧
    format.human_readable_size 1536 = "1.50 KiB" ∧
    format.human_readable_size 1073741824 = "1.00 GiB" ∧
    (∀ b : Nat, b < 1024 → format.human_readable_size b = toString b ++ " B") := by
  refine ⟨by decide, by decide, by decide, fun b hb => ?_⟩
  unfold format.human_readable_size
  rw [if_pos (by simpa [format.KILO] using hb)]

/-- Closed instantiation of the quantified bracket clause of
`c5_human_readable_size_values` at byte count 700. -/
theorem c5_human_readable_size_values_witness :
    format.human_readable_size 700 = "700 B" := by
  have h := c5_human_readable_size_values.2.2.2 700 (by decide)
  exact h.trans (by decide)

/-- C6 counterexample: the disk renderer's own byte formatter disagrees with
`format::human_readable_size` at 1535 bytes — float rounding rounds
1535/1024 = 1.4990… up to `1.50`, while the shared integer formatter
truncates the fractional computation to `1.49`. -/
theorem c6_byte_formatting_counterexample :
    storage.human_readable_size 1535 = "1.50 KiB" ∧
    format.human_readable_size 1535 = "1.49 KiB" ∧
    storage.human_readable_size 1535 ≠ format.human_readable_size 1535 := by
  refine ⟨by decide, by decide, by decide⟩

/-- C6 (amended): `format::human_readable_size` computes
whole = bytes ÷ unit and fractional = ((bytes mod unit) × 100) ÷ unit in
integer arithmetic, but the disk renderer does not reuse it: `storage.rs`
carries its own floating-point reimplementation.  The two agree on byte
counts below 1024 yet differ in general — at 1535 the disk renderer returns
`"1.50 KiB"` while the shared function returns `"1.49 KiB"`. -/
theorem c6_byte_formatting_not_shared :
    (∀ b : Nat, 1024 ≤ b → b < 1024 * 1024 →
      format.human_readable_size b =
        toString (b / 1024) ++ "." ++ pad2 (b % 1024 * 100 / 1024) ++ " KiB") ∧
    (∀ b : Nat, b < 1024 → storage.human_readable_size b = format.human_readable_size b) ∧
    storage.human_readable_size 1535 = "1.50 KiB" ∧
    format.human_readable_size 1535 = "1.49 KiB" := by
  refine ⟨fun b hb1 hb2 => ?_, fun b hb => hrs_agree_below_kilo b hb, by decide, by decide⟩
  unfold format.human_readable_size
  rw [if_neg (by simp [format.KILO]; omega), if_pos (by simpa [format.MEGA, format.KILO] using hb2)]
  simp [format.format_scaled, format.KILO, String.append_assoc]

/-- Closed instantiation of the quantified clauses of
`c6_byte_formatting_not_shared` at byte counts 2048 and 512. -/
theorem c6_byte_formatting_not_shared_witness :
    format.human_readable_size 2048 = "2.00 KiB" ∧
    storage.human_readable_size 512 = format.human_readable_size 512 := by
  constructor
  · have h := c6_byte_formatting_not_shared.1 2048 (by decide) (by decide)
    exact h.trans (by decide)
  · exact c6_byte_formatting_not_shared.2.1 512 (by decide)

/-- C8: percentage formatting computes tenths-of-a-percent as
numerator × 1000 ÷ denominator with the product taken in `u128` (which never
wraps for `u64` inputs), yields 0 for a zero denominator with no failure, and
prints tenths ÷ 10, a dot, then tenths mod 10; in particular 1/3 renders
`"33.3"` and 0/0 renders `"0.0"`. -/
theorem c8_percentage_formatting :
    (format.Percentage.from_ratio 1 3).display = "33.3" ∧
    (format.Percentage.from_ratio 0 0).display = "0.0" ∧
    (∀ n : Nat, (format.Percentage.from_ratio n 0).tenths = 0) ∧
    (∀ n : Nat, n ≤ u64max → n * 1000 % u128size = n * 1000) ∧
    (∀ n d : Nat, n ≤ u64max → d ≠ 0 → n * 1000 / d ≤ u64max →
      (format.Percentage.from_ratio n d).tenths = n * 1000 / d) ∧
    (∀ p : format.Percentage,
      p.display = toString (p.tenths / 10) ++ "." ++ toString (p.tenths % 10)) := by
  refine ⟨by decide, by decide, fun n => ?_, fun n hn => mul1000_mod_u128 n hn,
    fun n d hn hd hq => ?_, fun p => rfl⟩
  · simp [format.Percentage.from_ratio]
  · unfold format.Percentage.from_ratio
    rw [if_neg hd, mul1000_mod_u128 n hn, if_pos hq]

/-- Closed instantiation of the quantified clauses of `c8_percentage_formatting`:
zero denominator at n = 7, wide product and exact quotient at 1/3. -/
theorem c8_percentage_formatting_witness :
    (format.Percentage.from_ratio 7 0).tenths = 0 ∧
    1 * 1000 % u128size = 1 * 1000 ∧
    (format.Percentage.from_ratio 1 3).tenths = 1 * 1000 / 3 := by
  refine ⟨c8_percentage_formatting.2.2.1 7,
    c8_percentage_formatting.2.2.2.1 1 (by decide),
    c8_percentage_formatting.2.2.2.2.1 1 3 (by decide) (by decide) (by decide)⟩

/-- C10: `Percentage::from_ratio` is total for `u64` inputs — the 128-bit
product never wraps, the result is always a valid `u64`, and when the exact
quotient exceeds `u64::MAX` the stored tenths saturate to `u64::MAX` rather
than wrapping. -/
theorem c10_from_ratio_total_saturating :
    ∀ n d : Nat, n ≤ u64max →
      n * 1000 % u128size = n * 1000 ∧
      (format.Percentage.from_ratio n d).tenths ≤ u64max ∧
      (d ≠ 0 → u64max < n * 1000 / d →
        (format.Percentage.from_ratio n d).tenths = u64max) ∧
      (d ≠ 0 → n * 1000 / d ≤ u64max →
        (format.Percentage.from_ratio n d).tenths = n * 1000 / d) := by
  intro n d hn
  refine ⟨mul1000_mod_u128 n hn, ?_, fun hd hq => ?_, fun hd hq => ?_⟩
  · unfold format.Percentage.from_ratio
    split
    · exact Nat.zero_le _
    · dsimp only
      split
      · next h => exact h
      · exact Nat.le_refl _
  · unfold format.Percentage.from_ratio
    rw [if_neg hd, mul1000_mod_u128 n hn, if_neg (by omega)]
  · unfold format.Percentage.from_ratio
    rw [if_neg hd, mul1000_mod_u128 n hn, if_pos hq]

/-- Closed instantiation of `c10_from_ratio_total_saturating` at the
saturating input n = u64::MAX, d = 1. -/
theorem c10_from_ratio_total_saturating_witness :
    (format.Percentage.from_ratio u64max 1).tenths = u64max := by
  exact (c10_from_ratio_total_saturating u64max 1 (Nat.le_refl _)).2.2.1
    (by decide) (by decide)

/-- `dedup_adjacent` yields an order-preserving sublist of its input. -/
theorem dedup_adjacent_sublist : ∀ l : List String,
    List.Sublist (network.dedup_adjacent l) l := by
  intro l
  induction l with
  | nil => simp [network.dedup_adjacent]
  | cons a t ih =>
    cases t with
    | nil => simp [network.dedup_adjacent]
    | cons b rest =>
      simp only [network.dedup_adjacent]
      by_cases h : a = b
      · rw [if_pos h]; exact ih.cons a
      · rw [if_neg h]; exact ih.cons₂ a

/-- `dedup_adjacent` keeps the head of its input. -/
theorem dedup_adjacent_head : ∀ (rest : List String) (b : String),
    (network.dedup_adjacent (b :: rest)).head? = some b := by
  intro rest
  induction rest with
  | nil => intro b; rfl
  | cons c rs ih =>
    intro b
    simp only [network.dedup_adjacent]
    by_cases h : b = c
    · rw [if_pos h, h]; exact ih c
    · rw [if_neg h]; rfl

/-- `dedup_adjacent` leaves no two equal elements adjacent. -/
theorem dedup_adjacent_chain : ∀ l : List String,
    List.Chain' (· ≠ ·) (network.dedup_adjacent l) := by
  intro l
  induction l with
  | nil => simp [network.dedup_adjacent]
  | cons a t ih =>
    cases t with
    | nil => simp [network.dedup_adjacent]
    | cons b rest =>
      simp only [network.dedup_adjacent]
      by_cases h : a = b
      · rw [if_pos h]; exact ih
      · rw [if_neg h]
        rw [List.chain'_cons']
        refine ⟨fun y hy => ?_, ih⟩
        rw [dedup_adjacent_head rest b] at hy
        simp only [Option.mem_some_iff] at hy
        subst hy
        exact h

/-- `unique_by_go` yields an order-preserving sublist of its input. -/
theorem unique_by_go_sublist {α κ : Type} [DecidableEq κ] (key : α → κ) :
    ∀ (l : List α) (seen : List κ),
      List.Sublist (storage.unique_by_go key seen l) l := by
  intro l
  induction l with
  | nil => intro seen; simp [storage.unique_by_go]
  | cons a t ih =>
    intro seen
    simp only [storage.unique_by_go]
    by_cases h : key a ∈ seen
    · rw [if_pos h]; exact (ih seen).cons a
    · rw [if_neg h]; exact (ih _).cons₂ a

/-- The keys emitted by `unique_by_go` are pairwise distinct and avoid the
`seen` set. -/
theorem unique_by_go_keys {α κ : Type} [DecidableEq κ] (key : α → κ) :
    ∀ (l : List α) (seen : List κ),
      ((storage.unique_by_go key seen l).map key).Nodup ∧
      ∀ k ∈ (storage.unique_by_go key seen l).map key, k ∉ seen := by
  intro l
  induction l with
  | nil => intro seen; simp [storage.unique_by_go]
  | cons a t ih =>
    intro seen
    simp only [storage.unique_by_go]
    by_cases h : key a ∈ seen
    · rw [if_pos h]; exact ih seen
    · rw [if_neg h]
      obtain ⟨hnd, hfresh⟩ := ih (key a :: seen)
      refine ⟨?_, ?_⟩
      · simp only [List.map_cons, List.nodup_cons]
        exact ⟨fun hmem => (hfresh _ hmem) (List.mem_cons_self _ _), hnd⟩
      · intro k hk
        simp only [List.map_cons, List.mem_cons] at hk
        rcases hk with rfl | hk
        · exact h
        · exact fun hks => (hfresh k hk) (List.mem_cons_of_mem _ hks)

/-- Marking one extra key as seen is the same as filtering that key out of
the remaining input. -/
theorem unique_by_go_filter {α κ : Type} [DecidableEq κ] (key : α → κ) (k₀ : κ) :
    ∀ (l : List α) (seen : List κ),
      storage.unique_by_go key (seen ++ [k₀]) l =
        storage.unique_by_go key seen (l.filter fun x => key x ≠ k₀) := by
  intro l
  induction l with
  | nil => intro seen; simp [storage.unique_by_go]
  | cons x t ih =>
    intro seen
    by_cases hk : key x = k₀
    · have hmem : key x ∈ seen ++ [k₀] := by simp [hk]
      rw [List.filter_cons_of_neg (by simp [hk])]
      simp only [storage.unique_by_go]
      rw [if_pos hmem]
      exact ih seen
    · rw [List.filter_cons_of_pos (by simp [hk])]
      simp only [storage.unique_by_go]
      by_cases hs : key x ∈ seen
      · have hmem : key x ∈ seen ++ [k₀] := List.mem_append_left _ hs
        rw [if_pos hmem, if_pos hs]
        exact ih seen
      · have hmem : key x ∉ seen ++ [k₀] := by simp [List.mem_append, hs, hk]
        rw [if_neg hmem, if_neg hs, ← List.cons_append, ih (key x :: seen)]

/-- `unique_by` keeps the head and drops every later element with the same
key, recursing on the rest. -/
theorem unique_by_cons {α κ : Type} [DecidableEq κ] (key : α → κ) (a : α) (t : List α) :
    storage.unique_by key (a :: t) =
      a :: storage.unique_by key (t.filter fun x => key x ≠ key a) := by
  unfold storage.unique_by
  simp only [storage.unique_by_go]
  rw [if_neg (List.not_mem_nil _)]
  have h := unique_by_go_filter key (key a) t []
  simp only [List.nil_append] at h
  rw [h]

/-- C7 counterexample: a repeated DNS-server address with a different address
in between survives `Vec::dedup` — both occurrences of `8.8.8.8` remain in
the output, so more than the first occurrence is kept. -/
theorem c7_dns_nonadjacent_counterexample :
    network.list_dns_servers ["8.8.8.8:53", "1.1.1.1:53", "8.8.8.8:53"] =
      ["8.8.8.8", "1.1.1.1", "8.8.8.8"] ∧
    (network.list_dns_servers ["8.8.8.8:53", "1.1.1.1:53", "8.8.8.8:53"]).count
      "8.8.8.8" = 2 := by
  constructor <;> decide

/-- C7 (amended): insertion order equals the order in which the underlying
collaborator returned the items (both outputs are order-preserving sublists
of their input); disks are deduplicated by disk name keeping only the first
occurrence, including non-adjacent repeats (the kept element is the head and
all later same-key elements are dropped, so kept keys are pairwise distinct);
DNS-server addresses, however, are deduplicated only when adjacent
(`Vec::dedup`): the output merely has no two equal neighbours, and a
non-adjacent repeated address remains. -/
theorem c7_dedup_order_and_identity :
    (∀ ns : List String,
      List.Sublist (network.list_dns_servers ns) (ns.map network.addressOf)) ∧
    (∀ ns : List String, List.Chain' (· ≠ ·) (network.list_dns_servers ns)) ∧
    (∀ disks : List storage.RawDisk,
      List.Sublist (storage.unique_by storage.RawDisk.name disks) disks) ∧
    (∀ disks : List storage.RawDisk,
      ((storage.unique_by storage.RawDisk.name disks).map storage.RawDisk.name).Nodup) ∧
    (∀ (a : storage.RawDisk) (t : List storage.RawDisk),
      storage.unique_by storage.RawDisk.name (a :: t) =
        a :: storage.unique_by storage.RawDisk.name
          (t.filter fun x => x.name ≠ a.name)) := by
  refine ⟨fun ns => dedup_adjacent_sublist _, fun ns => dedup_adjacent_chain _,
    fun disks => unique_by_go_sublist _ _ _, fun disks => (unique_by_go_keys _ _ _).1,
    fun a t => unique_by_cons _ a t⟩

/-- C9 counterexample: the disk renderer's severity is not derived from the
tenths value: for a disk with total 1000 and free 250 bytes (used 750, hence
tenths = 750 > 700) the claimed rule gives warning, but the renderer's own
floating-point free-space banding (25% free, not below 20) gives nominal. -/
theorem c9_disk_banding_counterexample :
    (storage.DiskInfo.mk "disk0" "SSD" 1000 250).freeSeverity = Severity.nominal ∧
    tenthsSeverity (format.Percentage.from_ratio 750 1000).tenths = Severity.warning ∧
    (storage.DiskInfo.mk "disk0" "SSD" 1000 250).freeSeverity ≠
      tenthsSeverity (format.Percentage.from_ratio 750 1000).tenths := by
  refine ⟨by decide, by decide, by decide⟩

/-- C9 (amended): used-RAM severity is driven off the same integer
tenths-of-a-percent value used for display, against the fixed thresholds
tenths > 900 critical, tenths > 700 warning, else nominal; but used-disk
severity is not derived from that source: the disk renderer bands its own
floating-point rounded free-space percentage at < 10 critical / < 20 warning,
which disagrees with the tenths rule (disk with total 1000, free 250:
nominal, while the tenths rule on used space gives warning). -/
theorem c9_ram_banding_single_source :
    (∀ r : system.Ram,
      r.usedSeverity =
        tenthsSeverity (format.Percentage.from_ratio r.used r.total).tenths) ∧
    (storage.DiskInfo.mk "disk0" "SSD" 1000 250).freeSeverity = Severity.nominal ∧
    tenthsSeverity (format.Percentage.from_ratio 750 1000).tenths = Severity.warning := by
  refine ⟨fun r => rfl, by decide, by decide⟩

/-- C4: the time probe never fails: for every invocation and every NTP
outcome — successful synchronization, synchronization failure, or the
elapsed explicit deadline (`timedOut`, the program's single
`tokio::time::timeout`) — it returns a time-of-day value whose clock-offset
sub-field is present iff synchronization succeeded; on timeout or sync
failure it degrades to the bare time-of-day value (offset absent), so the
time, datetime and everything commands cannot fail because of NTP. -/
theorem c4_time_probe_degrades :
    ∀ (h m s : Nat) (tz : String) (ntp : datetime.NtpOutcome),
      ((datetime.time h m s tz ntp).1.offset.isSome = true ↔
        ∃ o, ntp = .synced o) ∧
      (∀ o, ntp = .synced o → (datetime.time h m s tz ntp).1.offset = some o) ∧
      (∀ e, ntp = .syncFailed e →
        (datetime.time h m s tz ntp).1 = datetime.Time.fromLocal h m s tz) ∧
      (ntp = .timedOut →
        (datetime.time h m s tz ntp).1 = datetime.Time.fromLocal h m s tz) ∧
      (datetime.Time.fromLocal h m s tz).offset = none ∧
      (execute_time h m s tz ntp).isOk = true ∧
      (∀ d : datetime.Date, (execute_datetime d h m s tz ntp).isOk = true) ∧
      (∀ w : World, (execute_everything w).isOk = true) := by
  intro h m s tz ntp
  cases ntp <;>
    simp [datetime.time, datetime.Time.fromLocal, datetime.datetime,
      execute_time, execute_datetime, execute_everything, Except.isOk, Except.toBool]

/-- Closed instantiation of `c4_time_probe_degrades` at the timed-out NTP
outcome: the probe still yields the bare time-of-day value with no offset
and the time command succeeds. -/
theorem c4_time_probe_degrades_witness :
    (datetime.time 20 20 2 "UTC" .timedOut).1 = datetime.Time.fromLocal 20 20 2 "UTC" ∧
    (datetime.time 20 20 2 "UTC" .timedOut).1.offset = none ∧
    (execute_time 20 20 2 "UTC" .timedOut).isOk = true := by
  have h := c4_time_probe_degrades 20 20 2 "UTC" .timedOut
  refine ⟨h.2.2.2.1 rfl, ?_, h.2.2.2.2.2.1⟩
  rw [h.2.2.2.1 rfl]
  exact h.2.2.2.2.1

/-- C2: `ips` with category any — or with the flag unset — is best-effort:
it succeeds iff at least one of the two probes yields a value, fails (exit 1)
only when both fail, and on partial success returns exactly the successful
side's entries while only the failing side's warning goes to the diagnostic
stream; in particular, with only the local probe succeeding it exits 0 with
exactly one entry tagged local. -/
theorem c2_ips_any_best_effort :
    ∀ (only : Option network.IpCategory) (pub loc : Except String String),
      only = some .Any ∨ only = none →
      ((handle_ips only pub loc).1.isOk = true ↔
        (pub.isOk = true ∨ loc.isOk = true)) ∧
      (pub.isOk = false → loc.isOk = false →
        (handle_ips only pub loc).1 = .error "could not determine any IP addresses" ∧
        exit_code (handle_ips only pub loc).1 = 1) ∧
      (∀ e a, pub = .error e → loc = .ok a →
        (handle_ips only pub loc).1 = .ok (.ips ⟨[network.Ip.mk a .Local]⟩) ∧
        (handle_ips only pub loc).2 =
          ["warning: could not determine public IP: " ++ e] ∧
        exit_code (handle_ips only pub loc).1 = 0) ∧
      (∀ a e, pub = .ok a → loc = .error e →
        (handle_ips only pub loc).1 = .ok (.ips ⟨[network.Ip.mk a .Public]⟩) ∧
        (handle_ips only pub loc).2 =
          ["warning: could not determine local IP: " ++ e] ∧
        exit_code (handle_ips only pub loc).1 = 0) ∧
      (∀ a b, pub = .ok a → loc = .ok b →
        (handle_ips only pub loc).1 =
          .ok (.ips ⟨[network.Ip.mk a .Public, network.Ip.mk b .Local]⟩) ∧
        (handle_ips only pub loc).2 = []) := by
  intro only pub loc honly
  rcases honly with rfl | rfl <;>
    rcases pub with e | a <;> rcases loc with f | b <;>
      simp [handle_ips, gather_ips, exit_code, Except.isOk, Except.toBool]

/-- Closed instantiation of `c2_ips_any_best_effort` at the partial-success
input: public probe down, local probe succeeding — the command exits 0 with
exactly one entry tagged local and one public-side warning. -/
theorem c2_ips_any_best_effort_witness :
    (handle_ips (some .Any) (.error "down") (.ok "192.168.1.42")).1 =
      .ok (.ips ⟨[network.Ip.mk "192.168.1.42" .Local]⟩) ∧
    (handle_ips (some .Any) (.error "down") (.ok "192.168.1.42")).2 =
      ["warning: could not determine public IP: down"] ∧
    exit_code (handle_ips (some .Any) (.error "down") (.ok "192.168.1.42")).1 = 0 := by
  have h := c2_ips_any_best_effort (some .Any) (.error "down") (.ok "192.168.1.42")
    (Or.inl rfl)
  exact h.2.2.1 "down" "192.168.1.42" rfl rfl

/-- Mapping an `Except` value preserves success. -/
theorem except_map_isOk {ε α β : Type} (r : Except ε α) (f : α → β) :
    (r.map f).isOk = r.isOk := by
  cases r <;> rfl

/-- Mapping the error of an `Except` value preserves success. -/
theorem except_mapError_isOk {ε ε' α : Type} (r : Except ε α) (g : ε → ε') :
    (r.mapError g).isOk = r.isOk := by
  cases r <;> rfl

/-- Mapping an `Option` preserves presence. -/
theorem option_map_isSome {α β : Type} (o : Option α) (f : α → β) :
    (o.map f).isSome = o.isSome := by
  cases o <;> rfl

/-- `gather_ips` yields a value iff at least one of the two probes succeeded. -/
theorem gather_ips_isSome (pub loc : Except String String) :
    (gather_ips pub loc).1.isSome = true ↔ (pub.isOk = true ∨ loc.isOk = true) := by
  rcases pub with e | a <;> rcases loc with f | b <;>
    simp [gather_ips, Except.isOk, Except.toBool]

/-- `warn_on_err` yields a value iff the probe succeeded. -/
theorem warn_on_err_isSome {T : Type} (r : Except String T) (label : String) :
    (warn_on_err r label).1.isSome = true ↔ r.isOk = true := by
  cases r <;> simp [warn_on_err, Except.isOk, Except.toBool]

/-- Keys contributed by one skip-if-none optional serde field. -/
theorem optField_keys {α : Type} (key : String) (f : α → Json) (o : Option α) :
    (optField key f o).map Prod.fst = if o.isSome then [key] else [] := by
  cases o <;> simp [optField]

/-- The top-level key list of a serialized snapshot, in declaration order,
with each optional field contributing its key exactly when present. -/
theorem keys_everything (e : Everything) :
    e.toJson.keys =
      (if e.ips.isSome then ["ips"] else []) ++
      (if e.dns.isSome then ["dns"] else []) ++
      ["date", "time"] ++
      (if e.hostname.isSome then ["hostname"] else []) ++
      (if e.username.isSome then ["username"] else []) ++
      (if e.device_name.isSome then ["device_name"] else []) ++
      (if e.os.isSome then ["os"] else []) ++
      ["architecture"] ++
      (if e.interfaces.isSome then ["interfaces"] else []) ++
      (if e.disks.isSome then ["disks"] else []) ++
      (if e.cpu.isSome then ["cpu"] else []) ++
      ["ram"] := by
  simp [Everything.toJson, Json.keys, Json.objFields, optField_keys, List.map_append]

/-- Membership in one optional-key segment. -/
theorem mem_if_singleton (c : Prop) [Decidable c] (a b : String) :
    (a ∈ if c then [b] else []) ↔ (c ∧ a = b) := by
  by_cases h : c <;> simp [h]

/-- The four mandatory keys are always in the serialized snapshot, and each
optional key is in it exactly when its field is present. -/
theorem everything_keys_iff (e : Everything) :
    ("date" ∈ e.toJson.keys) ∧ ("time" ∈ e.toJson.keys) ∧
    ("architecture" ∈ e.toJson.keys) ∧ ("ram" ∈ e.toJson.keys) ∧
    (("ips" ∈ e.toJson.keys) ↔ e.ips.isSome = true) ∧
    (("dns" ∈ e.toJson.keys) ↔ e.dns.isSome = true) ∧
    (("hostname" ∈ e.toJson.keys) ↔ e.hostname.isSome = true) ∧
    (("username" ∈ e.toJson.keys) ↔ e.username.isSome = true) ∧
    (("device_name" ∈ e.toJson.keys) ↔ e.device_name.isSome = true) ∧
    (("os" ∈ e.toJson.keys) ↔ e.os.isSome = true) ∧
    (("interfaces" ∈ e.toJson.keys) ↔ e.interfaces.isSome = true) ∧
    (("disks" ∈ e.toJson.keys) ↔ e.disks.isSome = true) ∧
    (("cpu" ∈ e.toJson.keys) ↔ e.cpu.isSome = true) := by
  simp only [keys_everything, List.mem_append, mem_if_singleton, List.mem_cons,
    List.mem_singleton, List.not_mem_nil, or_false]
  simp

/-- Values contributed by one skip-if-none optional serde field are never
null when the serializer never produces null. -/
theorem optField_no_null {α : Type} {key : String} {f : α → Json} {o : Option α}
    (hf : ∀ v, f v ≠ Json.null) :
    ∀ kv ∈ optField key f o, kv.2 ≠ Json.null := by
  cases o with
  | none => intro kv hkv; simp [optField] at hkv
  | some v =>
    intro kv hkv
    simp only [optField, List.mem_singleton] at hkv
    subst hkv
    exact hf v

/-- No field of a serialized snapshot is ever null: absent optional fields
are omitted, not emitted as null. -/
theorem everything_no_null (e : Everything) :
    ∀ kv ∈ e.toJson.objFields, kv.2 ≠ Json.null := by
  intro kv hkv
  simp only [Everything.toJson, Json.objFields, List.mem_append, List.mem_cons,
    List.not_mem_nil, or_false, List.mem_singleton, or_assoc] at hkv
  rcases hkv with h | h | rfl | rfl | h | h | h | h | rfl | h | h | h | rfl
  · exact optField_no_null (fun v => by simp) kv h
  · exact optField_no_null (fun v => by simp) kv h
  · simp [datetime.Date.toJson]
  · simp [datetime.Time.toJson]
  · exact optField_no_null (fun v => by simp [system.Hostname.toJson]) kv h
  · exact optField_no_null (fun v => by simp [system.Username.toJson]) kv h
  · exact optField_no_null (fun v => by simp [system.DeviceName.toJson]) kv h
  · exact optField_no_null (fun v => by simp [system.OperatingSystem.toJson]) kv h
  · simp [system.Architecture.toJson]
  · exact optField_no_null (fun v => by simp) kv h
  · exact optField_no_null (fun v => by simp) kv h
  · exact optField_no_null (fun v => by simp [system.Cpu.toJson]) kv h
  · simp [system.Ram.toJson]

/-- C1: in every snapshot the `everything` command produces, an optional
field is present iff its probe succeeded (never a placeholder); the mandatory
`date`, `time`, `ram` and `architecture` fields are always present, built
from the infallible readings, whatever the probe outcomes; and the JSON
projection always carries the four mandatory keys, carries an optional key
iff the field is present, and never emits a null value. -/
theorem c1_everything_presence :
    ∀ w : World,
      ((snapshot w).ips.isSome = true ↔
        (w.publicIp.isOk = true ∨ w.localIp.isOk = true)) ∧
      ((snapshot w).dns.isSome = true ↔ w.dnsConf.isOk = true) ∧
      ((snapshot w).hostname.isSome = true ↔ w.hostnameRes.isOk = true) ∧
      ((snapshot w).username.isSome = true ↔ w.usernameRes.isOk = true) ∧
      ((snapshot w).device_name.isSome = true ↔ w.deviceNameRes.isOk = true) ∧
      ((snapshot w).os.isSome = true ↔ w.osRes.isOk = true) ∧
      ((snapshot w).interfaces.isSome = true ↔ w.interfacesRes.isOk = true) ∧
      ((snapshot w).disks.isSome = true ↔
        (storage.list_disks w.rawDisks).isOk = true) ∧
      ((snapshot w).cpu.isSome = true ↔ w.cpuRes.isOk = true) ∧
      ((snapshot w).date = w.date ∧ (snapshot w).ram = w.ram ∧
        (snapshot w).architecture = system.architecture w.arch) ∧
      (∀ e : Everything,
        ("date" ∈ e.toJson.keys) ∧ ("time" ∈ e.toJson.keys) ∧
        ("architecture" ∈ e.toJson.keys) ∧ ("ram" ∈ e.toJson.keys)) ∧
      (∀ e : Everything,
        (("ips" ∈ e.toJson.keys) ↔ e.ips.isSome = true) ∧
        (("dns" ∈ e.toJson.keys) ↔ e.dns.isSome = true) ∧
        (("hostname" ∈ e.toJson.keys) ↔ e.hostname.isSome = true) ∧
        (("username" ∈ e.toJson.keys) ↔ e.username.isSome = true) ∧
        (("device_name" ∈ e.toJson.keys) ↔ e.device_name.isSome = true) ∧
        (("os" ∈ e.toJson.keys) ↔ e.os.isSome = true) ∧
        (("interfaces" ∈ e.toJson.keys) ↔ e.interfaces.isSome = true) ∧
        (("disks" ∈ e.toJson.keys) ↔ e.disks.isSome = true) ∧
        (("cpu" ∈ e.toJson.keys) ↔ e.cpu.isSome = true)) ∧
      (∀ e : Everything, ∀ kv ∈ e.toJson.objFields, kv.2 ≠ Json.null) := by
  intro w
  refine ⟨gather_ips_isSome _ _,
    (warn_on_err_isSome _ _).trans (by rw [except_mapError_isOk, except_map_isOk]),
    (warn_on_err_isSome _ _).trans (by simp only [system.hostname, except_map_isOk]),
    (warn_on_err_isSome _ _).trans (by simp only [system.username, except_map_isOk]),
    (warn_on_err_isSome _ _).trans (by simp only [system.device_name, except_map_isOk]),
    (warn_on_err_isSome _ _).trans (by simp only [system.os, except_map_isOk]),
    ?_, (warn_on_err_isSome _ _).trans (by rw [except_mapError_isOk]),
    (warn_on_err_isSome _ _).trans (by rw [except_mapError_isOk]),
    ⟨rfl, rfl, rfl⟩,
    fun e => ⟨(everything_keys_iff e).1, (everything_keys_iff e).2.1,
      (everything_keys_iff e).2.2.1, (everything_keys_iff e).2.2.2.1⟩,
    fun e => (everything_keys_iff e).2.2.2.2,
    fun e => everything_no_null e⟩
  show ((warn_on_err (w.interfacesRes.mapError
      (fun e => "listing network interfaces: " ++ e)) "network interfaces").1.map
        fun l => l.filter network.is_default_visible).isSome = true ↔ _
  rw [option_map_isSome]
  exact (warn_on_err_isSome _ _).trans (by rw [except_mapError_isOk])

/-- The pass-3 loop marks exactly the rows whose group differs from the
previous row's group (the state threading unrolled into a zip with the
shifted group list). -/
theorem netLinesGo_zip (rows : List NetRow) : ∀ cur,
    netLinesGo cur rows = rows.zipWith
      (fun r prev =>
        ⟨if prev = some r.group then none else some r.group, r.label, r.value⟩)
      (cur :: rows.map fun r => some r.group) := by
  induction rows with
  | nil => intro cur; rfl
  | cons r rest ih =>
    intro cur
    simp only [netLinesGo, List.map_cons, List.zipWith_cons_cons]
    by_cases h : cur = some r.group
    · rw [if_pos h, if_pos h, h, ih (some r.group)]
    · rw [if_neg h, if_neg h, ih (some r.group)]

/-- `netLinesGo` agrees with the spec's run-length marking. -/
theorem netLinesGo_eq_linesSpec (rows : List NetRow) :
    netLinesGo none rows = linesSpec rows :=
  netLinesGo_zip rows none

/-- The pass-3 loop processes concatenated row lists blockwise, threading the
`current_field` state. -/
theorem netLinesGo_append (A B : List NetRow) : ∀ cur,
    netLinesGo cur (A ++ B) =
      netLinesGo cur A ++ netLinesGo (lastGroup cur A) B := by
  induction A with
  | nil => intro cur; rfl
  | cons r rest ih =>
    intro cur
    simp only [List.cons_append, netLinesGo, lastGroup]
    by_cases h : cur = some r.group
    · rw [if_pos h, if_pos h]
      subst h
      simp only [List.cons_append]
      exact congrArg _ (ih (some r.group))
    · rw [if_neg h, if_neg h]
      simp only [List.cons_append]
      exact congrArg _ (ih (some r.group))

/-- The loop state after two concatenated blocks. -/
theorem lastGroup_append (A B : List NetRow) : ∀ cur,
    lastGroup cur (A ++ B) = lastGroup (lastGroup cur A) B := by
  induction A with
  | nil => intro cur; rfl
  | cons r rest ih =>
    intro cur
    simp only [List.cons_append, lastGroup]
    exact ih (some r.group)

/-- Starting inside a group, a uniform block yields only continuation
lines. -/
theorem netLinesGo_all_none (g : String) :
    ∀ rows : List NetRow, (∀ r ∈ rows, r.group = g) →
      netLinesGo (some g) rows = rows.map fun r => ⟨none, r.label, r.value⟩ := by
  intro rows
  induction rows with
  | nil => intro _; rfl
  | cons r rest ih =>
    intro hall
    have hr : r.group = g := hall r (List.mem_cons_self _ _)
    simp only [netLinesGo, List.map_cons]
    rw [if_pos (by rw [hr])]
    rw [ih fun x hx => hall x (List.mem_cons_of_mem _ hx)]

/-- Starting outside the group, a uniform block marks its first row and
leaves the rest as continuation lines. -/
theorem netLinesGo_block (g : String) (r : NetRow) (rest : List NetRow)
    (cur : Option String) (hr : r.group = g) (hrest : ∀ x ∈ rest, x.group = g)
    (hcur : cur ≠ some g) :
    netLinesGo cur (r :: rest) =
      ⟨some g, r.label, r.value⟩ :: rest.map fun x => ⟨none, x.label, x.value⟩ := by
  simp only [netLinesGo]
  rw [if_neg (by rw [hr]; exact hcur), hr]
  rw [netLinesGo_all_none g rest hrest]

/-- The loop state after a uniform block is the block's group (or unchanged
for an empty block). -/
theorem lastGroup_of_uniform (g : String) :
    ∀ rows : List NetRow, (∀ r ∈ rows, r.group = g) → ∀ cur : Option String,
      lastGroup cur rows = cur ∨ lastGroup cur rows = some g := by
  intro rows
  induction rows with
  | nil => intro _ cur; exact Or.inl rfl
  | cons r rest ih =>
    intro hall cur
    have hr : r.group = g := hall r (List.mem_cons_self _ _)
    simp only [lastGroup]
    rcases ih (fun x hx => hall x (List.mem_cons_of_mem _ hx)) (some r.group) with h | h
    · right; rw [h, hr]
    · right; exact h

/-- Group-label count over one uniform block entered from outside the group:
one line iff the block is nonempty and carries the counted group. -/
theorem count_block (g g' : String) (rows : List NetRow) (cur : Option String)
    (hg : ∀ r ∈ rows, r.group = g) (hcur : cur ≠ some g) :
    (netLinesGo cur rows).countP (fun l => decide (l.outer = some g')) =
      if rows ≠ [] ∧ g' = g then 1 else 0 := by
  cases rows with
  | nil => simp [netLinesGo]
  | cons r rest =>
    have hr : r.group = g := hg r (List.mem_cons_self _ _)
    rw [netLinesGo_block g r rest cur hr (fun x hx => hg x (List.mem_cons_of_mem _ hx)) hcur]
    rw [List.countP_cons]
    have hzero : (rest.map fun x => (⟨none, x.label, x.value⟩ : NetLine)).countP
        (fun l => decide (l.outer = some g')) = 0 := by
      rw [List.countP_eq_zero]
      intro l hl
      simp only [List.mem_map] at hl
      obtain ⟨x, -, rfl⟩ := hl
      simp
    rw [hzero]
    by_cases hgg : g' = g
    · subst hgg; simp
    · have hgg' : g ≠ g' := fun hh => hgg hh.symm
      simp [hgg, hgg']

/-- Membership in the group list of a uniform block. -/
theorem mem_map_group_uniform (g : String) (rows : List NetRow)
    (hg : ∀ r ∈ rows, r.group = g) (g' : String) :
    g' ∈ rows.map NetRow.group ↔ (rows ≠ [] ∧ g' = g) := by
  cases rows with
  | nil => simp
  | cons r rest =>
    simp only [List.map_cons, List.mem_cons, ne_eq, reduceCtorEq, not_false_iff, true_and]
    constructor
    · rintro (h | h)
      · rw [h]; exact hg r (List.mem_cons_self _ _)
      · obtain ⟨x, hx, rfl⟩ := List.mem_map.mp h
        exact hg x (List.mem_cons_of_mem _ hx)
    · rintro rfl
      exact Or.inl (hg r (List.mem_cons_self _ _)).symm

/-- The ips rows all carry group `ips`. -/
theorem ipsRows_group (e : Everything) : ∀ r ∈ ipsRows e, r.group = "ips" := by
  intro r hr
  simp only [ipsRows] at hr
  rcases he : e.ips with - | l
  · rw [he] at hr; simp at hr
  · rw [he] at hr
    simp only [List.mem_map] at hr
    obtain ⟨ip, -, rfl⟩ := hr
    rfl

/-- The dns rows all carry group `dns`. -/
theorem dnsRows_group (e : Everything) : ∀ r ∈ dnsRows e, r.group = "dns" := by
  intro r hr
  simp only [dnsRows] at hr
  rcases he : e.dns with - | l
  · rw [he] at hr; simp at hr
  · rw [he] at hr
    simp only [List.mem_map] at hr
    obtain ⟨s, -, rfl⟩ := hr
    rfl

/-- The interface rows all carry group `interfaces`. -/
theorem ifaceRows_group (e : Everything) : ∀ r ∈ ifaceRows e, r.group = "interfaces" := by
  intro r hr
  simp only [ifaceRows] at hr
  rcases he : e.interfaces with - | l
  · rw [he] at hr; simp at hr
  · rw [he] at hr
    simp only [List.mem_map] at hr
    obtain ⟨i, -, rfl⟩ := hr
    rfl

/-- Each group label appears exactly once in the emitted lines — on the row
where its (nonempty) block starts — and labels of absent or empty groups do
not appear at all. -/
theorem count_collect (e : Everything) (g' : String) :
    (netLinesGo none (collectNetworkRows e)).countP
      (fun l => decide (l.outer = some g')) =
      if g' ∈ (collectNetworkRows e).map NetRow.group then 1 else 0 := by
  have hA := ipsRows_group e
  have hB := dnsRows_group e
  have hC := ifaceRows_group e
  have hs1 := lastGroup_of_uniform "ips" (ipsRows e) hA none
  have hs1' : lastGroup none (ipsRows e) ≠ some "dns" := by
    rcases hs1 with h | h <;> rw [h] <;> simp
  have hs2 := lastGroup_of_uniform "dns" (dnsRows e) hB (lastGroup none (ipsRows e))
  have hs2' : lastGroup (lastGroup none (ipsRows e)) (dnsRows e) ≠ some "interfaces" := by
    rcases hs2 with h | h <;> rw [h]
    · rcases hs1 with h1 | h1 <;> rw [h1] <;> simp
    · simp
  show (netLinesGo none (ipsRows e ++ dnsRows e ++ ifaceRows e)).countP _ = _
  rw [netLinesGo_append, netLinesGo_append, lastGroup_append,
    List.countP_append, List.countP_append]
  rw [count_block "ips" g' (ipsRows e) none hA (by simp)]
  rw [count_block "dns" g' (dnsRows e) _ hB hs1']
  rw [count_block "interfaces" g' (ifaceRows e) _ hC hs2']
  show _ = if g' ∈ (ipsRows e ++ dnsRows e ++ ifaceRows e).map NetRow.group then 1 else 0
  rw [List.map_append, List.map_append]
  simp only [List.mem_append,
    mem_map_group_uniform "ips" (ipsRows e) hA,
    mem_map_group_uniform "dns" (dnsRows e) hB,
    mem_map_group_uniform "interfaces" (ifaceRows e) hC]
  by_cases h1 : g' = "ips"
  · subst h1; simp
  · by_cases h2 : g' = "dns"
    · subst h2; simp
    · by_cases h3 : g' = "interfaces"
      · subst h3; simp
      · simp [h1, h2, h3]

/-- A fold of `max` only grows its accumulator. -/
theorem foldl_max_init_le (rows : List NetRow) : ∀ a : Nat,
    a ≤ rows.foldl (fun acc x => max acc x.label.length) a := by
  induction rows with
  | nil => intro a; exact Nat.le_refl a
  | cons x rest ih =>
    intro a
    exact le_trans (Nat.le_max_left a x.label.length) (ih (max a x.label.length))

/-- Every row's label is bounded by the fold of `max`. -/
theorem mem_le_foldl (rows : List NetRow) : ∀ (a : Nat) (r : NetRow), r ∈ rows →
    r.label.length ≤ rows.foldl (fun acc x => max acc x.label.length) a := by
  induction rows with
  | nil => intro a r hr; exact absurd hr (List.not_mem_nil r)
  | cons x rest ih =>
    intro a r hr
    rcases List.mem_cons.mp hr with rfl | hr
    · exact le_trans (Nat.le_max_right a r.label.length) (foldl_max_init_le rest _)
    · exact ih _ r hr

/-- The fold of `max` is either the start value or attained by a row. -/
theorem foldl_max_attained (rows : List NetRow) : ∀ a : Nat,
    rows.foldl (fun acc x => max acc x.label.length) a = a ∨
    ∃ r ∈ rows, rows.foldl (fun acc x => max acc x.label.length) a = r.label.length := by
  induction rows with
  | nil => intro a; exact Or.inl rfl
  | cons x rest ih =>
    intro a
    rcases ih (max a x.label.length) with h | ⟨r, hr, he⟩
    · rcases max_choice a x.label.length with hm | hm
      · left
        show rest.foldl _ (max a x.label.length) = a
        rw [h, hm]
      · right
        refine ⟨x, List.mem_cons_self _ _, ?_⟩
        show rest.foldl _ (max a x.label.length) = x.label.length
        rw [h, hm]
    · exact Or.inr ⟨r, List.mem_cons_of_mem _ hr, he⟩

/-- The longest sub-label length of a nonempty row list is attained. -/
theorem maxSubLabelLen_attained (rows : List NetRow) (h : rows ≠ []) :
    ∃ r ∈ rows, maxSubLabelLen rows = r.label.length := by
  rcases foldl_max_attained rows 0 with h0 | he
  · cases rows with
    | nil => exact absurd rfl h
    | cons x rest =>
      refine ⟨x, List.mem_cons_self _ _, ?_⟩
      have hx : x.label.length ≤ maxSubLabelLen (x :: rest) :=
        mem_le_foldl _ 0 x (List.mem_cons_self _ _)
      unfold maxSubLabelLen at *
      omega
  · exact he

/-- C3 counterexample: for the spec's example rows (`public`, `local`,
`server 1`, `server 2`, `en0`) the longest sub-label is 8 characters long but
the rendered sub-label column is 9 columns wide (`max + 1`, line 430 of
`src/main.rs`), as the rendered dns row shows — the claimed equality of
column width and longest sub-label length fails. -/
theorem c3_width_counterexample :
    maxSubLabelLen (collectNetworkRows exampleSnapshot) = 8 ∧
    innerWidth (collectNetworkRows exampleSnapshot) = 9 ∧
    innerWidth (collectNetworkRows exampleSnapshot) ≠
      maxSubLabelLen (collectNetworkRows exampleSnapshot) ∧
    (write_network_section exampleSnapshot).get? 2 =
      some "  dns            server 1 8.8.8.8" := by
  refine ⟨by decide, by decide, by decide, by decide⟩

/-- C3 (amended): in the text rendering of the Snapshot's Network section,
for every combination of present ips, dns and interfaces rows, the sub-label
column width equals one plus the length of the longest sub-label across all
collected rows of all three groups (not per group) — every sub-label is
strictly shorter than the column, and the bound is attained by some row plus
the one-column gutter; each group's name is printed exactly once, on the
first row of that group (the rows where the group changes from the previous
row), and continuation rows of the same group are indented by the
`2 + LABEL_WIDTH` column instead. -/
theorem c3_network_section_layout :
    ∀ e : Everything,
      (∀ r ∈ collectNetworkRows e,
        r.label.length < innerWidth (collectNetworkRows e)) ∧
      (collectNetworkRows e ≠ [] →
        ∃ r ∈ collectNetworkRows e,
          innerWidth (collectNetworkRows e) = r.label.length + 1) ∧
      netLinesGo none (collectNetworkRows e) = linesSpec (collectNetworkRows e) ∧
      (∀ g : String,
        (netLinesGo none (collectNetworkRows e)).countP
          (fun l => decide (l.outer = some g)) =
          if g ∈ (collectNetworkRows e).map NetRow.group then 1 else 0) ∧
      write_network_section e =
        (netLinesGo none (collectNetworkRows e)).map
          (renderNetLine (innerWidth (collectNetworkRows e))) ∧
      (∀ (iw : Nat) (l : NetLine), l.outer = none →
        renderNetLine iw l = spaces (2 + LABEL_WIDTH) ++ padRight l.label iw ++ l.value) := by
  intro e
  refine ⟨fun r hr => ?_, fun hne => ?_, netLinesGo_eq_linesSpec _,
    fun g => count_collect e g, ?_, fun iw l hl => ?_⟩
  · exact Nat.lt_succ_of_le (mem_le_foldl _ 0 r hr)
  · obtain ⟨r, hr, he⟩ := maxSubLabelLen_attained _ hne
    exact ⟨r, hr, by rw [innerWidth, he]⟩
  · by_cases h : collectNetworkRows e = []
    · simp [write_network_section, h, netLinesGo]
    · simp [write_network_section, List.isEmpty_iff, h]
  · simp only [renderNetLine, hl]

/-- Closed instantiation of `c3_network_section_layout` at the spec's example
snapshot: the dns group label is printed exactly once, the column width is
attained, and a continuation line is indented. -/
theorem c3_network_section_layout_witness :
    ((netLinesGo none (collectNetworkRows exampleSnapshot)).countP
      (fun l => decide (l.outer = some "dns")) = 1) ∧
    (∃ r ∈ collectNetworkRows exampleSnapshot,
      innerWidth (collectNetworkRows exampleSnapshot) = r.label.length + 1) ∧
    renderNetLine 9 ⟨none, "server 2", "8.8.4.4"⟩ =
      spaces 17 ++ padRight "server 2" 9 ++ "8.8.4.4" := by
  have h := c3_network_section_layout exampleSnapshot
  refine ⟨?_, h.2.1 (by decide), h.2.2.2.2.2 9 ⟨none, "server 2", "8.8.4.4"⟩ rfl⟩
  have hc := h.2.2.2.1 "dns"
  rw [if_pos (by decide)] at hc
  exact hc

end Mymy
